import Mathlib

/-!
Verification of the daily-balance scheduling engine.

The repository contains several evolving variants of the scheduler:
  * `TimetableScheduler` (two revisions in one file): a slot-grid allocator
    over a 06:00-23:00 day with 30-minute slots, plus break-insertion passes.
  * `ScheduleEngine` (two revisions): a continuous allocator over configurable
    working hours (default 09:00-17:00) with inline break insertion,
    per-date ad-hoc unavailability and per-date suppression of recurring rules.

The embedding works in whole minutes.  A timestamp is an `Int` counting
minutes since the JavaScript epoch; a calendar day is 1440 minutes, and the
epoch day (1970-01-01) was a Thursday, so JavaScript getDay corresponds to
(day + 4) mod 7.  All times the source constructs are whole minutes and every
comparison of fractional hours (`ms / 3600000 <= 24` etc.) is equivalent to an
integer comparison in minutes, so the translation is exact.
-/

namespace DailyBalance

/-- Task priority, mirroring the source union type. -/
inductive Priority
  | low
  | medium
  | high
deriving DecidableEq, Repr

/-- Task category, mirroring the source union type. -/
inductive TaskType
  | work
  | study
  | leisure
deriving DecidableEq, Repr

/-- Kind of a schedule block.  The source string literal is given for each
constructor: task, break, unavailable. -/
inductive BlockType
  | task
  | brk
  | unavailable
deriving DecidableEq, Repr

/-- Recurrence kind of an unavailability rule. -/
inductive RecurrenceType
  | daily
  | weekly
deriving DecidableEq, Repr

/-- The optional recurrence payload of an unavailability rule. -/
structure Recurrence where
  type : RecurrenceType
  days : Option (List Int) := none
deriving DecidableEq, Repr

/-- A pending task, as in the shared type declarations. -/
structure Task where
  id : String
  name : String
  duration : Int
  deadline : Int
  priority : Priority
  type : TaskType
  completed : Bool := false
  scheduledTime : Option Int := none
deriving DecidableEq, Repr

/-- A concrete block of the day plan. -/
structure TimeBlock where
  id : String
  type : BlockType
  startTime : Int
  endTime : Int
  title : String
  description : Option String := none
  taskId : Option String := none
  task : Option Task := none
  isFixed : Bool := false
deriving DecidableEq, Repr

/-- An unavailability rule (template times plus optional recurrence). -/
structure UnavailableBlock where
  id : String
  startTime : Int
  endTime : Int
  title : String
  description : Option String := none
  recurring : Option Recurrence := none
deriving DecidableEq, Repr

/-! ### Calendar arithmetic on minute timestamps -/

/-- Calendar day number of a timestamp. -/
def dayOf (t : Int) : Int := t.ediv 1440

/-- Midnight of the day containing a timestamp (Date copy + setHours(0,0,0,0)). -/
def midnightOf (t : Int) : Int := dayOf t * 1440

/-- The hour component of a timestamp (Date.getHours). -/
def getHoursOf (t : Int) : Int := (t.emod 1440).ediv 60

/-- The minute component of a timestamp (Date.getMinutes). -/
def getMinutesOf (t : Int) : Int := t.emod 60

/-- Weekday of a timestamp, 0 = Sunday (Date.getDay); the epoch day was a
Thursday. -/
def getDayOf (t : Int) : Int := (dayOf t + 4).emod 7

/-- setHours(h, m, 0, 0) applied to a copy of the given timestamp. -/
def setHM (t h m : Int) : Int := midnightOf t + h * 60 + m

/-- toDateString equality: two timestamps fall on the same calendar day. -/
def sameDay (a b : Int) : Bool := dayOf a == dayOf b

/-- Round a timestamp up to the next multiple of m minutes
(ScheduleEngine.roundUpToMinutes). -/
def roundUpToMinutes (t m : Int) : Int := -((-t).ediv m) * m

/-- The strict open-interval overlap test shared by every scheduler variant
(slotsOverlap / timeSlotsOverlap in the source). -/
def timeSlotsOverlap (s1 e1 s2 e2 : Int) : Bool :=
  decide (s1 < e2) && decide (s2 < e1)

/-- Whether some pair of distinct blocks of a list overlaps under the strict
open-interval test.  Distinctness is by block id (all blocks the engine builds
carry distinct ids). -/
def hasOverlapPair (blocks : List TimeBlock) : Bool :=
  blocks.any fun a =>
    blocks.any fun b =>
      (a.id != b.id) && timeSlotsOverlap a.startTime a.endTime b.startTime b.endTime

/-- The description string attached to task blocks. -/
def taskDesc (t : Task) : String :=
  (match t.type with
    | .work => "work"
    | .study => "study"
    | .leisure => "leisure")
  ++ " • "
  ++ (match t.priority with
    | .high => "high"
    | .medium => "medium"
    | .low => "low")
  ++ " priority • " ++ toString t.duration ++ "m"

/-! ### Association-list maps, standing for the Map/Set objects of the
`ScheduleEngine` revision that tracks ad-hoc blocks and suppressed recurring
instances per date key. -/

/-- Map.set: replace the value at a key, or append a fresh entry. -/
def mapSet (m : List (Int × α)) (k : Int) (v : α) : List (Int × α) :=
  if (m.lookup k).isSome then
    m.map fun p => if p.1 = k then (k, v) else p
  else
    m ++ [(k, v)]

/-- Map.delete. -/
def mapErase (m : List (Int × α)) (k : Int) : List (Int × α) :=
  m.filter fun p => !(p.1 == k)

/-- Set.add on a set represented as a duplicate-free list. -/
def setAdd (s : List String) (x : String) : List String :=
  if s.contains x then s else s ++ [x]

/-! ### String helpers.  The source branches on id shapes with
String.prototype.startsWith and String.prototype.split; these are modelled
directly on the character data so that concrete runs reduce inside the
kernel. -/

/-- Whether the first character list begins with the second. -/
def charsStartWith : List Char → List Char → Bool
  | _, [] => true
  | [], _ :: _ => false
  | c :: cs, d :: ds => c == d && charsStartWith cs ds

/-- JavaScript id.startsWith(p). -/
def strStartsWith (s p : String) : Bool := charsStartWith s.data p.data

/-- Split a character list at every dash. -/
def splitCharsOnDash : List Char → List (List Char)
  | [] => [[]]
  | c :: cs =>
    if c = '-' then [] :: splitCharsOnDash cs
    else
      match splitCharsOnDash cs with
      | [] => [[c]]
      | g :: gs => (c :: g) :: gs

/-- JavaScript id.split(dash). -/
def splitOnDash (s : String) : List String :=
  (splitCharsOnDash s.data).map String.mk

/-! ### ScheduleEngine: the revision with per-date ad-hoc unavailability and
per-date suppression of recurring instances. -/

namespace ScheduleEngine

/-- The engine configuration, with the source defaults. -/
structure Config where
  whStart : Int
  whEnd : Int
  shortBreakDuration : Int
  longBreakDuration : Int
  maxContinuousWork : Int
  longBreakThreshold : Int
deriving DecidableEq, Repr

/-- Default configuration: working hours 9-17, breaks 15/30, 90 minutes of
continuous work before a break, 180 before a long break. -/
def defaultConfig : Config :=
  { whStart := 9, whEnd := 17, shortBreakDuration := 15, longBreakDuration := 30
    maxContinuousWork := 90, longBreakThreshold := 180 }

/-- The mutable engine fields. -/
structure State where
  config : Config
  tasks : List Task
  unavailableBlocks : List UnavailableBlock
  schedule : List TimeBlock
  adHocUnavailableByDate : List (Int × List TimeBlock)
  suppressedRecurringInstances : List (Int × List String)
deriving DecidableEq, Repr

/-- getDateKey: the date key of a timestamp (the code uses the ISO date
string, represented here by the day number). -/
def getDateKey (t : Int) : Int := dayOf t

/-- createWorkDay: the working-hours window of the target date. -/
def createWorkDay (cfg : Config) (date : Int) : Int × Int :=
  (setHM date cfg.whStart 0, setHM date cfg.whEnd 0)

/-- shouldIncludeBlock: whether a rule applies to the target date.  A rule
without recurrence is always included; daily rules are always included; weekly
rules are included when the target weekday is listed. -/
def shouldIncludeBlock (b : UnavailableBlock) (date : Int) : Bool :=
  match b.recurring with
  | none => true
  | some r =>
    match r.type with
    | .daily => true
    | .weekly =>
      match r.days with
      | some days => days.contains (getDayOf date)
      | none => false

/-- The first half of addUnavailableBlocks: materialize each non-suppressed
applicable rule onto the target day, clamped to the working window, skipping
rules that do not overlap the window at all. -/
def materializeRecurring (rules : List UnavailableBlock) (suppressed : List String)
    (workDay : Int × Int) : List TimeBlock :=
  rules.filterMap fun b =>
    if suppressed.contains b.id then none
    else if shouldIncludeBlock b workDay.1 then
      let s := setHM workDay.1 (getHoursOf b.startTime) (getMinutesOf b.startTime)
      let e := setHM workDay.1 (getHoursOf b.endTime) (getMinutesOf b.endTime)
      if timeSlotsOverlap s e workDay.1 workDay.2 then
        some { id := "unavailable-" ++ b.id ++ "-" ++ toString workDay.1
               type := .unavailable
               startTime := max s workDay.1
               endTime := min e workDay.2
               title := b.title
               description := b.description
               isFixed := true }
      else none
    else none

/-- The second half of addUnavailableBlocks: ad-hoc blocks recorded for the
date key, clamped to the working window. -/
def materializeAdHoc (adHoc : List TimeBlock) (workDay : Int × Int) : List TimeBlock :=
  adHoc.filterMap fun b =>
    if timeSlotsOverlap b.startTime b.endTime workDay.1 workDay.2 then
      some { b with startTime := max b.startTime workDay.1
                    endTime := min b.endTime workDay.2 }
    else none

/-- getUrgencyScore: deadline band (100/80/60/20 at 24h/48h/168h) plus
priority weight (50/30/10) plus category weight (20/15/5). -/
def getUrgencyScore (now : Int) (t : Task) : Int :=
  let timeToDeadline := t.deadline - now
  (if timeToDeadline ≤ 1440 then 100
   else if timeToDeadline ≤ 2880 then 80
   else if timeToDeadline ≤ 10080 then 60
   else 20)
  + (match t.priority with
    | .high => 50
    | .medium => 30
    | .low => 10)
  + (match t.type with
    | .work => 20
    | .study => 15
    | .leisure => 5)

/-- prioritizeTasks: stable sort, descending by urgency score.  (The
JavaScript engine sort with a consistent comparator is stable; the stable
sort of a list under a total preorder is unique, so insertion sort denotes
it.) -/
def prioritizeTasks (now : Int) (tasks : List Task) : List Task :=
  tasks.insertionSort fun a b => getUrgencyScore now b ≤ getUrgencyScore now a

/-- The scan in the second half of findAvailableSlot: walk the sorted
conflicting blocks, advancing past each until the task fits, then fall back to
the space after the last block (checked against the end of day). -/
def slotScan (d eod : Int) : List TimeBlock → Int → Option (Int × Int)
  | [], nextStart =>
    if nextStart + d ≤ eod then some (nextStart, nextStart + d) else none
  | b :: rest, nextStart =>
    if nextStart + d ≤ b.startTime then some (nextStart, nextStart + d)
    else slotScan d eod rest b.endTime

/-- findAvailableSlot of ScheduleEngine: return the interval at the requested
start when it is free, otherwise the earliest gap after the conflicting
blocks. -/
def findAvailableSlot (schedule : List TimeBlock) (startTime d eod : Int) :
    Option (Int × Int) :=
  let endTime := startTime + d
  if eod < endTime then none
  else if schedule.any fun b =>
      timeSlotsOverlap startTime endTime b.startTime b.endTime then
    let sorted := (schedule.filter fun b => decide (startTime < b.endTime)).insertionSort
      fun a b => a.startTime ≤ b.startTime
    slotScan d eod sorted startTime
  else some (startTime, endTime)

/-- The break block pushed by scheduleTasks. -/
def mkEngineBreak (cfg : Config) (cur bd : Int) : TimeBlock :=
  { id := "break-" ++ toString cur
    type := .brk
    startTime := cur
    endTime := cur + bd
    title := if bd == cfg.longBreakDuration then "Long Break" else "Short Break"
    description := some "Time to recharge and stay productive" }

/-- The task block pushed by scheduleTasks. -/
def mkEngineTask (t : Task) (s e : Int) : TimeBlock :=
  { id := "task-" ++ t.id ++ "-" ++ toString s
    type := .task
    startTime := s
    endTime := e
    title := t.name
    description := some (taskDesc t)
    taskId := some t.id
    task := some t }

/-- The main loop of scheduleTasks: before each task, insert a recovery break
when the continuous-work accumulator has reached the threshold (and the break
fits in the working window), then place the task at the earliest available
slot; stop at the first task that does not fit or once the cursor passes the
end of the working window. -/
def scheduleTasksGo (cfg : Config) (wdEnd : Int) :
    List Task → List TimeBlock → Int → Int → List TimeBlock
  | [], sched, _, _ => sched
  | t :: rest, sched, cur, cont =>
    let step : List TimeBlock × Int × Int :=
      if cfg.maxContinuousWork ≤ cont then
        let bd := if cfg.longBreakThreshold ≤ cont then cfg.longBreakDuration
          else cfg.shortBreakDuration
        if cur + bd ≤ wdEnd then
          (sched ++ [mkEngineBreak cfg cur bd], cur + bd, 0)
        else (sched, cur, cont)
      else (sched, cur, cont)
    match findAvailableSlot step.1 step.2.1 t.duration wdEnd with
    | none => step.1
    | some (s, e) =>
      let sched2 := step.1 ++ [mkEngineTask t s e]
      if wdEnd ≤ e then sched2
      else scheduleTasksGo cfg wdEnd rest sched2 e (step.2.2 + t.duration)

/-- scheduleTasks: the cursor starts at the wall-clock time rounded up to a
5-minute mark when the clock is inside the working window, else at the start
of the window. -/
def scheduleTasks (cfg : Config) (tasks : List Task) (workDay : Int × Int)
    (now : Int) (sched : List TimeBlock) : List TimeBlock :=
  let startFrom :=
    if decide (workDay.1 ≤ now) && decide (now < workDay.2) then
      roundUpToMinutes now 5
    else workDay.1
  scheduleTasksGo cfg workDay.2 tasks sched startFrom 0

/-- generateSchedule: clear the day, materialize unavailability (recurring
then ad-hoc), rank the tasks, run the placement loop, and return the blocks
sorted by start time.  The wall-clock time the source reads with new Date()
is the explicit argument now. -/
def generateSchedule (st : State) (date : Int) (now : Int) : State × List TimeBlock :=
  let workDay := createWorkDay st.config date
  let dateKey := getDateKey date
  let suppressed := ((st.suppressedRecurringInstances.lookup dateKey).getD [])
  let blocks := materializeRecurring st.unavailableBlocks suppressed workDay
    ++ materializeAdHoc ((st.adHocUnavailableByDate.lookup dateKey).getD []) workDay
  let ranked := prioritizeTasks now st.tasks
  let sched := scheduleTasks st.config ranked workDay now blocks
  ({ st with schedule := sched },
   sched.insertionSort fun a b => a.startTime ≤ b.startTime)

/-- isSlotAvailable: no block overlaps the interval, blocks carrying the
excluded task id being ignored. -/
def isSlotAvailable (schedule : List TimeBlock) (s e : Int) (excl : Option String) :
    Bool :=
  !(schedule.any fun b =>
    if (match excl with
      | some x => b.taskId == some x
      | none => false) then false
    else timeSlotsOverlap s e b.startTime b.endTime)

/-- One adjacent-pair step of regenerateBreaks: between consecutive task
blocks, insert a break when the gap is at least the short break length and the
earlier task lasted at least 60 minutes. -/
def regenerateBreaksGo (cfg : Config) : List TimeBlock → List TimeBlock
  | a :: b :: rest =>
    let gap := b.startTime - a.endTime
    let workDuration := (a.task.map Task.duration).getD 0
    (if decide (cfg.shortBreakDuration ≤ gap) && decide ((60 : Int) ≤ workDuration) then
      let bd := if cfg.longBreakThreshold ≤ workDuration then
          min cfg.longBreakDuration gap
        else min cfg.shortBreakDuration gap
      [{ id := "break-" ++ toString a.endTime
         type := .brk
         startTime := a.endTime
         endTime := a.endTime + bd
         title := if bd == cfg.longBreakDuration then "Long Break" else "Short Break"
         description := some "Time to recharge and stay productive" }]
    else [])
      ++ regenerateBreaksGo cfg (b :: rest)
  | _ => []

/-- regenerateBreaks: drop all break blocks, then re-insert breaks between
consecutive task blocks sorted by start time. -/
def regenerateBreaks (cfg : Config) (schedule : List TimeBlock) : List TimeBlock :=
  let noBreaks := schedule.filter fun b => !(b.type == BlockType.brk)
  let taskBlocks := (noBreaks.filter fun b => b.type == BlockType.task).insertionSort
    fun a b => a.startTime ≤ b.startTime
  noBreaks ++ regenerateBreaksGo cfg taskBlocks

/-- rescheduleTask: silently return the schedule when the task block is
missing; otherwise move the task to the requested start when the new interval
is free of every block not carrying the task's id, then regenerate breaks. -/
def rescheduleTask (st : State) (taskId : String) (newStart : Int) :
    State × List TimeBlock :=
  match st.schedule.find? fun b => b.taskId == some taskId with
  | none => (st, st.schedule)
  | some tb =>
    match tb.task with
    | none => (st, st.schedule)
    | some tsk =>
      let newEnd := newStart + tsk.duration
      if isSlotAvailable st.schedule newStart newEnd (some taskId) then
        let removed := st.schedule.filter fun b => !(b.taskId == some taskId)
        let nb : TimeBlock :=
          { id := "task-" ++ tsk.id ++ "-" ++ toString newStart
            type := .task
            startTime := newStart
            endTime := newEnd
            title := tsk.name
            description := some (taskDesc tsk)
            taskId := some tsk.id
            task := some tsk }
        let sched := regenerateBreaks st.config (removed ++ [nb])
        ({ st with schedule := sched }, sched)
      else (st, st.schedule)

/-- addUnavailableTime: record an ad-hoc fixed block under the date key of its
start and regenerate the whole schedule for that date. -/
def addUnavailableTime (st : State) (s e : Int) (title : String)
    (desc : Option String) (now : Int) : State × List TimeBlock :=
  let dateKey := getDateKey s
  let ub : TimeBlock :=
    { id := "ad-hoc-" ++ toString s
      type := .unavailable
      startTime := s
      endTime := e
      title := title
      description := desc
      isFixed := true }
  let cur := (st.adHocUnavailableByDate.lookup dateKey).getD []
  let st1 := { st with
    adHocUnavailableByDate := mapSet st.adHocUnavailableByDate dateKey (cur ++ [ub]) }
  generateSchedule st1 s now

/-- deleteTimeBlock: ad-hoc unavailable blocks are removed from the per-date
store; blocks of recurring rules put the second dash-separated component of
the block id into the per-date suppression set; task and break blocks are
dropped from the schedule (breaks being regenerated after a task). -/
def deleteTimeBlock (st : State) (blockId : String) (now : Int) :
    State × List TimeBlock :=
  match st.schedule.find? fun b => b.id == blockId with
  | none => (st, st.schedule)
  | some block =>
    let dateKey := getDateKey block.startTime
    if strStartsWith blockId "ad-hoc-" then
      let adHoc := (st.adHocUnavailableByDate.lookup dateKey).getD []
      let filtered := adHoc.filter fun b => !(b.id == blockId)
      let st1 := { st with
        adHocUnavailableByDate :=
          if filtered.isEmpty then mapErase st.adHocUnavailableByDate dateKey
          else mapSet st.adHocUnavailableByDate dateKey filtered }
      generateSchedule st1 block.startTime now
    else if strStartsWith blockId "unavailable-" then
      let recurringBlockId := ((splitOnDash blockId).get? 1).getD ""
      let cur := (st.suppressedRecurringInstances.lookup dateKey).getD []
      let st1 := { st with
        suppressedRecurringInstances :=
          mapSet st.suppressedRecurringInstances dateKey (setAdd cur recurringBlockId) }
      generateSchedule st1 block.startTime now
    else
      let sched := st.schedule.filter fun b => !(b.id == blockId)
      if strStartsWith blockId "task-" then
        let sched2 := regenerateBreaks st.config sched
        ({ st with schedule := sched2 }, sched2)
      else ({ st with schedule := sched }, sched)

end ScheduleEngine

/-! ### The earlier ScheduleEngine revision (no per-date stores).  Its
addUnavailableTime pushes the fixed block straight into the current schedule
and returns the result, with no conflict check and no regeneration. -/

namespace ScheduleEngineV0

/-- addUnavailableTime of the earlier revision: append the block. -/
def addUnavailableTime (schedule : List TimeBlock) (s e : Int) (title : String)
    (desc : Option String) : List TimeBlock :=
  schedule ++
    [{ id := "unavailable-" ++ toString s
       type := .unavailable
       startTime := s
       endTime := e
       title := title
       description := desc
       isFixed := true }]

end ScheduleEngineV0

/-! ### TimetableScheduler: the slot-grid variant (two revisions in one
file), day window 06:00-23:00, 30-minute slots. -/

namespace TimetableScheduler

/-- One cell of the discretized day.  The JavaScript object fields are
start, end, available; end is spelled stop here. -/
structure GridSlot where
  start : Int
  stop : Int
  available : Bool
deriving DecidableEq, Repr

/-- The while-loop building the 30-minute slot grid, bounded by a fuel
counter (each iteration advances the cursor by 30 minutes, so dayEnd - cur
iterations always suffice; once the cursor reaches the day end both the loop
and the fuel stop producing slots). -/
def buildSlotsGo (dayEnd : Int) : Nat → Int → List GridSlot
  | 0, _ => []
  | n + 1, cur =>
    if cur < dayEnd then
      { start := cur, stop := cur + 30, available := true } :: buildSlotsGo dayEnd n (cur + 30)
    else []

/-- The slot grid from the day start up to the day end. -/
def buildSlots (dayEnd : Int) (cur : Int) : List GridSlot :=
  buildSlotsGo dayEnd (dayEnd - cur).toNat cur

/-- Mark every slot intersecting some placed block as unavailable. -/
def markSlots (timetable : List TimeBlock) (slots : List GridSlot) : List GridSlot :=
  slots.map fun s =>
    if timetable.any fun b => timeSlotsOverlap s.start s.stop b.startTime b.endTime then
      { s with available := false }
    else s

/-- The search for the first run of req consecutive available slots: the
JavaScript loop tries each window left to right and returns the first slot's
start together with the last slot's end. -/
def findSlotRun (req : Nat) : List GridSlot → Option (Int × Int)
  | [] => none
  | s :: rest =>
    let w := (s :: rest).take req
    if w.length == req && w.all (·.available) then
      match w.getLast? with
      | some l => some (s.start, l.stop)
      | none => none
    else findSlotRun req rest

/-- findAvailableSlot of TimetableScheduler: build the 06:00-23:00 grid,
mark occupied slots, and search for ceil(duration / 30) consecutive free
slots. -/
def findAvailableSlot (timetable : List TimeBlock) (duration : Int) (date : Int) :
    Option (Int × Int) :=
  let dayStart := setHM date 6 0
  let dayEnd := setHM date 23 0
  let slots := markSlots timetable (buildSlots dayEnd dayStart)
  findSlotRun ((duration + 29).ediv 30).toNat slots

/-- The break block pushed by the first-revision insertBreaks. -/
def mkV1Break (a b : TimeBlock) (bd : Int) : TimeBlock :=
  { id := "break-" ++ a.id ++ "-" ++ b.id
    type := .brk
    startTime := a.endTime
    endTime := a.endTime + bd
    title := if bd == (30 : Int) then "Long Break" else "Short Break"
    description := some "Time to recharge" }

/-- The adjacent-pair loop of the first-revision insertBreaks, with the fixed
field values shortBreakDuration = 15, longBreakDuration = 30 and
maxContinuousWork = 90: accumulate the current task's duration, then insert a
break when needed and the gap allows, resetting the accumulator only after a
long break. -/
def insertBreaksGo : List TimeBlock → Int → List TimeBlock
  | a :: b :: rest, cont =>
    let cont1 := cont + (a.task.map Task.duration).getD 0
    let timeBetween := b.startTime - a.endTime
    let needsBreak := decide ((90 : Int) ≤ cont1) || decide ((15 : Int) ≤ timeBetween)
    if needsBreak && decide ((15 : Int) ≤ timeBetween) then
      let bd : Int := if (120 : Int) ≤ cont1 then 30 else 15
      if a.endTime + bd ≤ b.startTime then
        mkV1Break a b bd
          :: insertBreaksGo (b :: rest) (if bd == (30 : Int) then 0 else cont1)
      else insertBreaksGo (b :: rest) cont1
    else insertBreaksGo (b :: rest) cont1
  | _, _ => []

/-- insertBreaks (first revision): append the breaks computed over the task
blocks sorted by start time. -/
def insertBreaks (timetable : List TimeBlock) : List TimeBlock :=
  let taskBlocks := (timetable.filter fun b => b.type == BlockType.task).insertionSort
    fun a b => a.startTime ≤ b.startTime
  timetable ++ insertBreaksGo taskBlocks 0

/-- Whether a task block counts as intensive in the second-revision break
pass: high priority or at least 90 minutes long. -/
def isIntensive (b : TimeBlock) : Bool :=
  (b.task.map Task.priority) == some Priority.high
    || decide ((90 : Int) ≤ (b.task.map Task.duration).getD 0)

/-- The break block pushed by the second-revision insertIntelligentBreaks. -/
def mkV2Break (a b : TimeBlock) (bd : Int) (long rest_ : Bool) : TimeBlock :=
  { id := "break-" ++ a.id ++ "-" ++ b.id
    type := .brk
    startTime := a.endTime
    endTime := a.endTime + bd
    title := if long then "Extended Break" else if rest_ then "Rest Break" else "Short Break"
    description := some (if long then "Extended rest for wellbeing"
      else if rest_ then "Recovery from intensive work" else "Quick refresh") }

/-- The adjacent-pair loop of insertIntelligentBreaks (second revision), with
the fixed field values shortBreakDuration = 15, longBreakDuration = 30,
maxContinuousWork = 90: a long break needs 90 accumulated minutes and a
30-minute gap, a short break needs the current task to last 45 minutes, a
rest break needs two intensive tasks back to back; the accumulator resets
after a long break or a natural gap of 60 minutes. -/
def insertIntelligentBreaksGo : List TimeBlock → Int → List TimeBlock
  | a :: b :: rest, cont =>
    let taskDuration := (a.task.map Task.duration).getD 0
    let cont1 := cont + taskDuration
    let minutesBetween := b.startTime - a.endTime
    let needsShortBreak :=
      decide ((45 : Int) ≤ taskDuration) && decide ((15 : Int) ≤ minutesBetween)
    let needsLongBreak :=
      decide ((90 : Int) ≤ cont1) && decide ((30 : Int) ≤ minutesBetween)
    let needsRestBreak :=
      isIntensive a && isIntensive b && decide ((15 : Int) ≤ minutesBetween)
    let cont2 := if (60 : Int) ≤ minutesBetween then 0 else cont1
    if (needsLongBreak || needsRestBreak || needsShortBreak)
        && decide ((15 : Int) ≤ minutesBetween) then
      let bd : Int := if needsLongBreak then 30 else 15
      if a.endTime + bd ≤ b.startTime then
        mkV2Break a b bd needsLongBreak needsRestBreak
          :: insertIntelligentBreaksGo (b :: rest) (if needsLongBreak then 0 else cont2)
      else insertIntelligentBreaksGo (b :: rest) cont2
    else insertIntelligentBreaksGo (b :: rest) cont2
  | _, _ => []

/-- insertIntelligentBreaks (second revision): append the breaks computed
over the task blocks sorted by start time. -/
def insertIntelligentBreaks (timetable : List TimeBlock) : List TimeBlock :=
  let taskBlocks := (timetable.filter fun b => b.type == BlockType.task).insertionSort
    fun a b => a.startTime ≤ b.startTime
  timetable ++ insertIntelligentBreaksGo taskBlocks 0

/-- shouldIncludeBlock of the first revision: a rule without recurrence is
always included. -/
def shouldIncludeBlockV1 (b : UnavailableBlock) (date : Int) : Bool :=
  match b.recurring with
  | none => true
  | some r =>
    match r.type with
    | .daily => true
    | .weekly =>
      match r.days with
      | some days => days.contains (getDayOf date)
      | none => false

/-- shouldIncludeBlock of the second revision: a rule without recurrence is
included only when its template date falls on the target calendar day. -/
def shouldIncludeBlockV2 (b : UnavailableBlock) (date : Int) : Bool :=
  match b.recurring with
  | none => sameDay b.startTime date
  | some r =>
    match r.type with
    | .daily => true
    | .weekly =>
      match r.days with
      | some days => days.contains (getDayOf date)
      | none => false

/-- getBalancedScore of the second-revision prioritizeTasks: deadline band
(80/60/40/15), priority weight (40/25/10), category weight (15/12/8), minus a
wellbeing penalty for tasks over 120 and over 180 minutes. -/
def getBalancedScore (now : Int) (t : Task) : Int :=
  let timeToDeadline := t.deadline - now
  (if timeToDeadline ≤ 1440 then 80
   else if timeToDeadline ≤ 2880 then 60
   else if timeToDeadline ≤ 10080 then 40
   else 15)
  + (match t.priority with
    | .high => 40
    | .medium => 25
    | .low => 10)
  + (match t.type with
    | .work => 15
    | .study => 12
    | .leisure => 8)
  - (if 120 < t.duration then 10 else 0)
  - (if 180 < t.duration then 15 else 0)

/-- rescheduleTask of TimetableScheduler (identical in both revisions): a
pure function of the passed timetable; the block keeps its length (taken from
its own start and end times), conflicts are checked against every block at a
different index, and on conflict the timetable is returned unchanged. -/
def rescheduleTask (taskId : String) (newStart : Int) (tt : List TimeBlock) :
    List TimeBlock :=
  let i := tt.findIdx fun b => b.taskId == some taskId
  if h : i < tt.length then
    let tb := tt.get ⟨i, h⟩
    let newEnd := newStart + (tb.endTime - tb.startTime)
    let conflictExists := tt.enum.any fun p =>
      (p.1 != i) && timeSlotsOverlap newStart newEnd p.2.startTime p.2.endTime
    if conflictExists then tt
    else tt.set i
      { tb with startTime := newStart
                endTime := newEnd
                task := tb.task.map fun x => { x with scheduledTime := some newStart } }
  else tt

end TimetableScheduler

/-! ### Concrete instances used to settle the claims on explicit inputs. -/

/-- An engine state with one pending task and nothing else. -/
def exOneTaskState : ScheduleEngine.State :=
  { config := ScheduleEngine.defaultConfig
    tasks := [{ id := "t1", name := "T1", duration := 60, deadline := 3000,
                priority := .high, type := .work }]
    unavailableBlocks := []
    schedule := []
    adHocUnavailableByDate := []
    suppressedRecurringInstances := [] }

/-- A schedule holding a single placed task block 09:00-10:00. -/
def exSingleBlockSchedule : List TimeBlock :=
  [{ id := "task-a-540", type := .task, startTime := 540, endTime := 600, title := "A" }]

/-- A generated-looking engine schedule: two placed tasks around a fixed
unavailable block, with no overlaps. -/
def exRescheduleState : ScheduleEngine.State :=
  { config := ScheduleEngine.defaultConfig
    tasks := []
    unavailableBlocks := []
    schedule :=
      [ { id := "task-t1-540", type := .task, startTime := 540, endTime := 600,
          title := "T1", taskId := some "t1",
          task := some { id := "t1", name := "T1", duration := 60, deadline := 3000,
                         priority := .high, type := .work } },
        { id := "unavailable-u1-0", type := .unavailable, startTime := 600,
          endTime := 630, title := "U", isFixed := true },
        { id := "task-t2-660", type := .task, startTime := 660, endTime := 720,
          title := "T2", taskId := some "t2",
          task := some { id := "t2", name := "T2", duration := 60, deadline := 3000,
                         priority := .low, type := .leisure } } ]
    adHocUnavailableByDate := []
    suppressedRecurringInstances := [] }

/-- An empty engine state. -/
def exEmptyState : ScheduleEngine.State :=
  { config := ScheduleEngine.defaultConfig
    tasks := []
    unavailableBlocks := []
    schedule := []
    adHocUnavailableByDate := []
    suppressedRecurringInstances := [] }

/-- Two placed task blocks of 45 and 30 minutes with a 15-minute gap. -/
def exBreakTimetable : List TimeBlock :=
  [ { id := "task-a", type := .task, startTime := 540, endTime := 585,
      title := "A", taskId := some "a",
      task := some { id := "a", name := "A", duration := 45, deadline := 3000,
                     priority := .low, type := .work } },
    { id := "task-b", type := .task, startTime := 600, endTime := 630,
      title := "B", taskId := some "b",
      task := some { id := "b", name := "B", duration := 30, deadline := 3000,
                     priority := .low, type := .work } } ]

/-- A weekly unavailability rule whose id contains a dash, exactly as the ids
minted by crypto.randomUUID in the application do; it recurs on Tuesdays
(weekday 2), 10:00-11:00. -/
def exDashRule : UnavailableBlock :=
  { id := "ab-cd", startTime := 600, endTime := 660, title := "Gym",
    recurring := some { type := .weekly, days := some [2] } }

/-- An engine state holding only the dash-id weekly rule. -/
def exDashRuleState : ScheduleEngine.State :=
  { config := ScheduleEngine.defaultConfig
    tasks := []
    unavailableBlocks := [exDashRule]
    schedule := []
    adHocUnavailableByDate := []
    suppressedRecurringInstances := [] }

/-- The dash-id state after generating day 5 (a Tuesday, minutes 7200-8639):
its schedule holds the materialized rule block 10:00-11:00 of that day. -/
def exDashRuleGenerated : ScheduleEngine.State :=
  (ScheduleEngine.generateSchedule exDashRuleState 7200 0).1

/-- A one-off rule dated day 0 (10:00-11:00) with no recurrence. -/
def exOneOffRule : UnavailableBlock :=
  { id := "r0", startTime := 600, endTime := 660, title := "Appt" }

/-- Two tasks identical except for the deadline: the first is due earlier. -/
def exTaskEarly : Task :=
  { id := "e", name := "E", duration := 60, deadline := 1000,
    priority := .medium, type := .study }

/-- The later-deadline twin of exTaskEarly. -/
def exTaskLate : Task :=
  { id := "l", name := "L", duration := 60, deadline := 5000,
    priority := .medium, type := .study }

/-- A fixed unavailable block 10:00-11:00. -/
def exUnavailBlock : TimeBlock :=
  { id := "u", type := .unavailable, startTime := 600, endTime := 660,
    title := "U", isFixed := true }

/-- A schedule holding only exUnavailBlock. -/
def exUnavailSchedule : List TimeBlock := [exUnavailBlock]

/-- The break the second-revision pass inserts between the two tasks of
exBreakTimetable. -/
def exV2Break : TimeBlock :=
  { id := "break-task-a-task-b", type := .brk, startTime := 585, endTime := 600,
    title := "Short Break", description := some "Quick refresh" }

/-! ### Helper lemmas -/

theorem lookup_map_replace {α : Type} (m : List (Int × α)) (k : Int) (v : α)
    (h : (m.lookup k).isSome) :
    ((m.map fun p => if p.1 = k then (k, v) else p).lookup k) = some v := by
  induction m with
  | nil => simp at h
  | cons p rest ih =>
    obtain ⟨a, b⟩ := p
    by_cases hk : a = k
    · subst hk
      simp [List.lookup_cons]
    · have hk2 : (k == a) = false := by simp [Ne.symm hk]
      rw [List.lookup_cons, hk2] at h
      rw [List.map_cons, if_neg hk, List.lookup_cons, hk2]
      exact ih h

theorem lookup_append_single {α : Type} (m : List (Int × α)) (k : Int) (v : α)
    (h : m.lookup k = none) :
    ((m ++ [(k, v)]).lookup k) = some v := by
  induction m with
  | nil => simp [List.lookup_cons]
  | cons p rest ih =>
    obtain ⟨a, b⟩ := p
    by_cases hk : k = a
    · rw [List.lookup_cons, beq_iff_eq.mpr hk] at h
      cases h
    · have hk2 : (k == a) = false := by simp [hk]
      rw [List.lookup_cons, hk2] at h
      rw [List.cons_append, List.lookup_cons, hk2]
      exact ih h

theorem lookup_mapSet {α : Type} (m : List (Int × α)) (k : Int) (v : α) :
    ((mapSet m k v).lookup k) = some v := by
  unfold mapSet
  split
  · exact lookup_map_replace m k v (by assumption)
  · rename_i h
    refine lookup_append_single m k v ?_
    cases hc : m.lookup k with
    | none => rfl
    | some w => exact absurd (by simp [hc]) h

theorem slotScan_shape (d eod : Int) :
    ∀ (L : List TimeBlock) (ns s e : Int),
    ScheduleEngine.slotScan d eod L ns = some (s, e) → e = s + d := by
  intro L
  induction L with
  | nil =>
    intro ns s e h
    simp only [ScheduleEngine.slotScan] at h
    split at h
    · cases h; rfl
    · cases h
  | cons b rest ih =>
    intro ns s e h
    simp only [ScheduleEngine.slotScan] at h
    split at h
    · cases h; rfl
    · exact ih _ _ _ h

theorem slotScan_sound (d eod : Int) :
    ∀ (L : List TimeBlock) (t ns s e : Int),
    L.Pairwise (fun x y => x.endTime ≤ y.startTime) →
    (∀ b ∈ L, b.startTime ≤ b.endTime) →
    (∀ b ∈ L, t ≤ b.endTime) →
    t ≤ ns →
    ScheduleEngine.slotScan d eod L ns = some (s, e) →
    t ≤ s ∧ e = s + d ∧
      ∀ b ∈ L, timeSlotsOverlap s e b.startTime b.endTime = false := by
  intro L
  induction L with
  | nil =>
    intro t ns s e _ _ _ htn h
    simp only [ScheduleEngine.slotScan] at h
    split at h
    · cases h
      exact ⟨htn, rfl, by simp⟩
    · cases h
  | cons b rest ih =>
    intro t ns s e hpw hwf hte htn h
    have hpw_head : ∀ y ∈ rest, b.endTime ≤ y.startTime :=
      (List.pairwise_cons.mp hpw).1
    have hpw_tail : rest.Pairwise (fun x y => x.endTime ≤ y.startTime) :=
      (List.pairwise_cons.mp hpw).2
    simp only [ScheduleEngine.slotScan] at h
    split at h
    · rename_i hfit
      cases h
      refine ⟨htn, rfl, ?_⟩
      intro c hc
      rcases List.mem_cons.mp hc with hcb | hcr
      · subst hcb
        simp only [timeSlotsOverlap, Bool.and_eq_false_iff, decide_eq_false_iff_not, not_lt]
        right
        exact hfit
      · simp only [timeSlotsOverlap, Bool.and_eq_false_iff, decide_eq_false_iff_not, not_lt]
        right
        calc ns + d ≤ b.startTime := hfit
          _ ≤ b.endTime := hwf b (List.mem_cons_self b rest)
          _ ≤ c.startTime := hpw_head c hcr
    · rename_i hnofit
      have hrec := ih b.endTime b.endTime s e hpw_tail
        (fun c hc => hwf c (List.mem_cons_of_mem b hc))
        (fun c hc => le_trans (hpw_head c hc) (hwf c (List.mem_cons_of_mem b hc)))
        le_rfl h
      obtain ⟨hbs, hed, hno⟩ := hrec
      refine ⟨le_trans (hte b (List.mem_cons_self b rest)) hbs, hed, ?_⟩
      intro c hc
      rcases List.mem_cons.mp hc with hcb | hcr
      · subst hcb
        simp only [timeSlotsOverlap, Bool.and_eq_false_iff, decide_eq_false_iff_not, not_lt]
        left
        exact hbs
      · exact hno c hcr

theorem buildSlotsGo_stop (e : Int) : ∀ (n : Nat) (c : Int),
    ∀ s ∈ TimetableScheduler.buildSlotsGo e n c, s.stop = s.start + 30 := by
  intro n
  induction n with
  | zero => intro c s hs; cases hs
  | succ n ih =>
    intro c s hs
    rw [TimetableScheduler.buildSlotsGo] at hs
    split at hs
    · rcases List.mem_cons.mp hs with hs1 | hs2
      · subst hs1; rfl
      · exact ih (c + 30) s hs2
    · cases hs

theorem buildSlotsGo_head : ∀ (e : Int) (n : Nat) (c : Int)
    (x : TimetableScheduler.GridSlot),
    (TimetableScheduler.buildSlotsGo e n c).head? = some x → x.start = c := by
  intro e n c x h
  cases n with
  | zero => cases h
  | succ n =>
    rw [TimetableScheduler.buildSlotsGo] at h
    split at h
    · simp only [List.head?_cons, Option.some.injEq] at h
      subst h; rfl
    · cases h

theorem buildSlotsGo_chain (e : Int) : ∀ (n : Nat) (c : Int),
    List.Chain' (fun u v => v.start = u.start + 30)
      (TimetableScheduler.buildSlotsGo e n c) := by
  intro n
  induction n with
  | zero => intro c; exact List.chain'_nil
  | succ n ih =>
    intro c
    rw [TimetableScheduler.buildSlotsGo]
    split
    · refine List.chain'_cons'.mpr ⟨?_, ih (c + 30)⟩
      intro y hy
      rw [buildSlotsGo_head e n (c + 30) y hy]
    · exact List.chain'_nil

theorem buildSlots_stop (e c : Int) :
    ∀ s ∈ TimetableScheduler.buildSlots e c, s.stop = s.start + 30 :=
  buildSlotsGo_stop e _ c

theorem buildSlots_chain (e c : Int) :
    List.Chain' (fun u v => v.start = u.start + 30)
      (TimetableScheduler.buildSlots e c) :=
  buildSlotsGo_chain e _ c

theorem mark_preserve (tt : List TimeBlock) (u : TimetableScheduler.GridSlot) :
    ((if tt.any fun b => timeSlotsOverlap u.start u.stop b.startTime b.endTime then
        { u with available := false } else u) : TimetableScheduler.GridSlot).start = u.start
    ∧ ((if tt.any fun b => timeSlotsOverlap u.start u.stop b.startTime b.endTime then
        { u with available := false } else u) : TimetableScheduler.GridSlot).stop = u.stop := by
  split <;> exact ⟨rfl, rfl⟩

theorem markSlots_stop (tt : List TimeBlock) (slots : List TimetableScheduler.GridSlot)
    (h : ∀ s ∈ slots, s.stop = s.start + 30) :
    ∀ s ∈ TimetableScheduler.markSlots tt slots, s.stop = s.start + 30 := by
  intro s hs
  unfold TimetableScheduler.markSlots at hs
  rcases List.mem_map.mp hs with ⟨u, hu, hfu⟩
  have hp := mark_preserve tt u
  rw [← hfu, hp.1, hp.2]
  exact h u hu

theorem markSlots_chain (tt : List TimeBlock) (slots : List TimetableScheduler.GridSlot)
    (h : List.Chain' (fun u v => v.start = u.start + 30) slots) :
    List.Chain' (fun u v => v.start = u.start + 30)
      (TimetableScheduler.markSlots tt slots) := by
  unfold TimetableScheduler.markSlots
  rw [List.chain'_map]
  refine h.imp ?_
  intro a b hab
  rw [(mark_preserve tt a).1, (mark_preserve tt b).1]
  exact hab

theorem window_last : ∀ (xs : List TimetableScheduler.GridSlot)
    (x l : TimetableScheduler.GridSlot) (n : Nat),
    (∀ s ∈ x :: xs, s.stop = s.start + 30) →
    List.Chain' (fun u v => v.start = u.start + 30) (x :: xs) →
    (x :: xs).length = n →
    (x :: xs).getLast? = some l →
    l.stop = x.start + 30 * (n : Int) := by
  intro xs
  induction xs with
  | nil =>
    intro x l n hstop _ hlen hlast
    simp only [List.getLast?_singleton, Option.some.injEq] at hlast
    subst hlast
    simp only [List.length_singleton] at hlen
    subst hlen
    rw [hstop x (List.mem_cons_self x [])]
    push_cast
    ring
  | cons y ys ih =>
    intro x l n hstop hchain hlen hlast
    rw [List.getLast?_cons_cons] at hlast
    have hchain' := List.chain'_cons.mp hchain
    have hstep : y.start = x.start + 30 := hchain'.1
    have hrec := ih y l (n - 1)
      (fun s hs => hstop s (List.mem_cons_of_mem x hs))
      hchain'.2
      (by simp only [List.length_cons] at hlen ⊢; omega)
      hlast
    have hn : 2 ≤ n := by simp only [List.length_cons] at hlen; omega
    rw [hrec, hstep]
    have : ((n - 1 : Nat) : Int) = (n : Int) - 1 := by omega
    rw [this]
    ring

theorem findSlotRun_spec : ∀ (slots : List TimetableScheduler.GridSlot)
    (req : Nat) (a b : Int),
    0 < req →
    (∀ s ∈ slots, s.stop = s.start + 30) →
    List.Chain' (fun u v => v.start = u.start + 30) slots →
    TimetableScheduler.findSlotRun req slots = some (a, b) →
    b = a + 30 * (req : Int) := by
  intro slots
  induction slots with
  | nil =>
    intro req a b _ _ _ h
    simp [TimetableScheduler.findSlotRun] at h
  | cons s rest ih =>
    intro req a b hreq hstop hchain h
    simp only [TimetableScheduler.findSlotRun] at h
    split at h
    · rename_i hguard
      obtain ⟨k, rfl⟩ : ∃ k, req = k + 1 := ⟨req - 1, by omega⟩
      rw [List.take_succ_cons] at h hguard
      split at h
      · rename_i l hlast
        have hlen : (s :: rest.take k).length = k + 1 := by
          have h1 := ((Bool.and_eq_true _ _).mp hguard).1
          simpa using h1
        cases h
        exact window_last (rest.take k) s l (k + 1)
          (fun u hu => hstop u
            (List.mem_cons.mpr (by
              rcases List.mem_cons.mp hu with h1 | h2
              · exact Or.inl h1
              · exact Or.inr (List.take_subset k rest h2))))
          (by
            have : (s :: rest.take k) = (s :: rest).take (k + 1) := by
              rw [List.take_succ_cons]
            rw [this]
            exact hchain.take (k + 1))
          hlen hlast
      · cases h
    · exact ih req a b hreq
        (fun u hu => hstop u (List.mem_cons_of_mem s hu))
        ((List.chain'_cons'.mp hchain).2) h

theorem timeSlotsOverlap_symm_false {a b : TimeBlock}
    (h : timeSlotsOverlap a.startTime a.endTime b.startTime b.endTime = false) :
    timeSlotsOverlap b.startTime b.endTime a.startTime a.endTime = false := by
  simp only [timeSlotsOverlap, Bool.and_eq_false_iff, decide_eq_false_iff_not, not_lt] at h ⊢
  tauto

theorem chain_of_sorted_disjoint (L : List TimeBlock)
    (hs : L.Pairwise fun a b => a.startTime ≤ b.startTime)
    (hd : L.Pairwise fun x y =>
      timeSlotsOverlap x.startTime x.endTime y.startTime y.endTime = false)
    (hwf : ∀ b ∈ L, b.startTime < b.endTime) :
    L.Pairwise fun x y => x.endTime ≤ y.startTime := by
  refine List.Pairwise.imp_of_mem ?_ (hs.and hd)
  intro a b ha hb hab
  obtain ⟨h1, h2⟩ := hab
  have h2' : ¬(a.startTime < b.endTime ∧ b.startTime < a.endTime) := by
    simpa [timeSlotsOverlap, Bool.and_eq_true] using h2
  have hwa := hwf a ha
  have hwb := hwf b hb
  omega

/-! ### Claims -/

/-- Claim C1, counterexample: addUnavailableTime of the earlier ScheduleEngine
revision appends the requested block to the current schedule with no conflict
check, so the Schedule it returns contains two distinct blocks whose intervals
overlap under the strict open-interval test (the existing task 09:00-10:00 and
the added unavailable block 09:10-10:10), violating the claimed invariant. -/
theorem C1_counterexample :
    hasOverlapPair exSingleBlockSchedule = false ∧
      hasOverlapPair
        (ScheduleEngineV0.addUnavailableTime exSingleBlockSchedule 550 610
          "Meeting" none) = true := by
  constructor
  · decide
  · decide

/-- Claim C1, amended: the no-overlap invariant is not maintained by every
operation (addUnavailableTime of the earlier revision appends without any
check, and break blocks are pushed without being tested against unavailable
blocks), but the task allocator preserves it: whenever the existing blocks
are well-formed and pairwise non-overlapping, the slot that
ScheduleEngine.findAvailableSlot returns overlaps none of them. -/
theorem C1_theorem (schedule : List TimeBlock) (startTime d eod s e : Int)
    (hwf : ∀ b ∈ schedule, b.startTime < b.endTime)
    (hpw : schedule.Pairwise fun x y =>
      timeSlotsOverlap x.startTime x.endTime y.startTime y.endTime = false)
    (h : ScheduleEngine.findAvailableSlot schedule startTime d eod = some (s, e)) :
    ∀ b ∈ schedule, timeSlotsOverlap s e b.startTime b.endTime = false := by
  simp only [ScheduleEngine.findAvailableSlot] at h
  split at h
  · cases h
  · split at h
    · rename_i hle hconf
      haveI : IsTotal TimeBlock fun a b : TimeBlock => a.startTime ≤ b.startTime :=
        ⟨fun a b => le_total a.startTime b.startTime⟩
      haveI : IsTrans TimeBlock fun a b : TimeBlock => a.startTime ≤ b.startTime :=
        ⟨fun _ _ _ hab hbc => le_trans hab hbc⟩
      set F := schedule.filter (fun b => decide (startTime < b.endTime)) with hFdef
      set L := F.insertionSort (fun a b : TimeBlock => a.startTime ≤ b.startTime)
        with hLdef
      have hperm : L.Perm F := List.perm_insertionSort _ F
      have hmemL : ∀ {b}, b ∈ L ↔ b ∈ F := fun {b} => hperm.mem_iff
      have hFsub : ∀ b ∈ F, b ∈ schedule := fun b hb => (List.mem_filter.mp hb).1
      have hFlt : ∀ b ∈ F, startTime < b.endTime := fun b hb => by
        have h2 := (List.mem_filter.mp hb).2
        simpa using h2
      have hsorted : L.Pairwise fun a b : TimeBlock => a.startTime ≤ b.startTime :=
        List.sorted_insertionSort _ F
      have hdisjF : F.Pairwise (fun x y =>
          timeSlotsOverlap x.startTime x.endTime y.startTime y.endTime = false) :=
        List.Pairwise.sublist (List.filter_sublist _) hpw
      have hdisjL : L.Pairwise (fun x y =>
          timeSlotsOverlap x.startTime x.endTime y.startTime y.endTime = false) :=
        (List.Perm.pairwise_iff (fun h => timeSlotsOverlap_symm_false h) hperm).mpr hdisjF
      have hwfL : ∀ b ∈ L, b.startTime < b.endTime :=
        fun b hb => hwf b (hFsub b (hmemL.mp hb))
      have hchain := chain_of_sorted_disjoint L hsorted hdisjL hwfL
      have hsound := slotScan_sound d eod L startTime startTime s e hchain
        (fun b hb => le_of_lt (hwfL b hb))
        (fun b hb => le_of_lt (hFlt b (hmemL.mp hb)))
        le_rfl h
      obtain ⟨hts, _, hno⟩ := hsound
      intro b hb
      by_cases hbe : startTime < b.endTime
      · exact hno b (hmemL.mpr (List.mem_filter.mpr ⟨hb, by simpa using hbe⟩))
      · simp only [timeSlotsOverlap, Bool.and_eq_false_iff, decide_eq_false_iff_not,
          not_lt]
        left
        omega
    · rename_i hle hnoconf
      rw [Bool.not_eq_true] at hnoconf
      have hall := List.any_eq_false.mp hnoconf
      simp only [Option.some.injEq, Prod.mk.injEq] at h
      obtain ⟨rfl, rfl⟩ := h
      intro b hb
      have hb2 := hall b hb
      rw [Bool.not_eq_true] at hb2
      exact hb2

/-- Witness for C1: against a schedule holding one fixed block 10:00-11:00,
the allocator asked for 120 minutes from 09:00 returns 11:00-13:00, which
does not overlap the block. -/
theorem C1_witness :
    timeSlotsOverlap 660 780 exUnavailBlock.startTime exUnavailBlock.endTime = false :=
  C1_theorem exUnavailSchedule 540 120 1020 660 780
    (by decide)
    (by simp [exUnavailSchedule])
    (by decide)
    exUnavailBlock (by simp [exUnavailSchedule])

/-- Claim C2, counterexample: a reschedule that is accepted (the target slot
itself is free) regenerates the break blocks, and the regenerated break is
laid into the gap after the moved-away task with no check against unavailable
blocks: starting from an overlap-free schedule, moving task t2 from 11:00 to
12:00 produces a break 10:00-10:15 overlapping the fixed unavailable block
10:00-10:30 — an overlap that was not present before the call. -/
theorem C2_counterexample :
    hasOverlapPair exRescheduleState.schedule = false ∧
      hasOverlapPair (ScheduleEngine.rescheduleTask exRescheduleState "t2" 720).2 =
        true := by
  constructor
  · decide
  · decide

/-- Claim C2, amended: the conflict half of the claim holds — when the
requested interval overlaps any block other than the task's own, both
rescheduleTask implementations return the schedule (and state) unchanged —
but the no-new-overlap half fails for the ScheduleEngine revisions, whose
break regeneration after a successful move can create a fresh overlap (see
the counterexample). -/
theorem C2_theorem :
    (∀ (st : ScheduleEngine.State) (taskId : String) (newStart : Int)
      (tb : TimeBlock) (tsk : Task),
      (st.schedule.find? fun b => b.taskId == some taskId) = some tb →
      tb.task = some tsk →
      (∃ b ∈ st.schedule, ¬b.taskId = some taskId ∧
        timeSlotsOverlap newStart (newStart + tsk.duration) b.startTime b.endTime =
          true) →
      ScheduleEngine.rescheduleTask st taskId newStart = (st, st.schedule)) ∧
    (∀ (tt : List TimeBlock) (taskId : String) (newStart : Int)
      (tb c : TimeBlock) (j : Nat),
      tt.get? (tt.findIdx fun b => b.taskId == some taskId) = some tb →
      tt.get? j = some c →
      j ≠ tt.findIdx (fun b => b.taskId == some taskId) →
      timeSlotsOverlap newStart (newStart + (tb.endTime - tb.startTime))
        c.startTime c.endTime = true →
      TimetableScheduler.rescheduleTask taskId newStart tt = tt) := by
  constructor
  · intro st taskId newStart tb tsk hfind htask hconf
    have hunavail : ScheduleEngine.isSlotAvailable st.schedule newStart
        (newStart + tsk.duration) (some taskId) = false := by
      unfold ScheduleEngine.isSlotAvailable
      obtain ⟨b, hb, hbne, hbov⟩ := hconf
      have hbid : (b.taskId == some taskId) = false := by simpa using hbne
      have hany : (st.schedule.any fun b =>
          if (match some taskId with
            | some x => b.taskId == some x
            | none => false) then false
          else timeSlotsOverlap newStart (newStart + tsk.duration)
            b.startTime b.endTime) = true := by
        refine List.any_eq_true.mpr ⟨b, hb, ?_⟩
        simp only [hbid, if_false, Bool.false_eq_true]
        exact hbov
      rw [hany]
      rfl
    unfold ScheduleEngine.rescheduleTask
    rw [hfind]
    dsimp only
    rw [htask]
    dsimp only
    split
    · rename_i hav
      rw [hunavail] at hav
      cases hav
    · rfl
  · intro tt taskId newStart tb c j hi hj hjne hov
    have hlt : tt.findIdx (fun b => b.taskId == some taskId) < tt.length := by
      rcases List.get?_eq_some.mp hi with ⟨hl, _⟩
      exact hl
    have hget : tt.get ⟨tt.findIdx (fun b => b.taskId == some taskId), hlt⟩ = tb := by
      rcases List.get?_eq_some.mp hi with ⟨hl, hg⟩
      exact hg
    have hconfl : (tt.enum.any fun p =>
        (p.1 != tt.findIdx (fun b => b.taskId == some taskId)) &&
          timeSlotsOverlap newStart
            (newStart + ((tt.get ⟨tt.findIdx (fun b => b.taskId == some taskId),
                hlt⟩).endTime -
              (tt.get ⟨tt.findIdx (fun b => b.taskId == some taskId),
                hlt⟩).startTime))
            p.2.startTime p.2.endTime) = true := by
      refine List.any_eq_true.mpr ⟨(j, c), ?_, ?_⟩
      · rw [List.mk_mem_enum_iff_getElem?, ← List.get?_eq_getElem?]
        exact hj
      · rw [hget]
        simp only [Bool.and_eq_true, bne_iff_ne, ne_eq]
        exact ⟨hjne, hov⟩
    unfold TimetableScheduler.rescheduleTask
    rw [dif_pos hlt]
    dsimp only
    split
    · rfl
    · rename_i hn
      exact absurd hconfl hn

/-- Witness for C2: moving task t2 of the three-block schedule onto 09:10
conflicts with task t1 (09:00-10:00), and the call leaves state and schedule
unchanged; likewise for the TimetableScheduler variant on the same blocks. -/
theorem C2_witness :
    ScheduleEngine.rescheduleTask exRescheduleState "t2" 550 =
        (exRescheduleState, exRescheduleState.schedule) ∧
      TimetableScheduler.rescheduleTask "t2" 550 exRescheduleState.schedule =
        exRescheduleState.schedule := by
  constructor
  · exact C2_theorem.1 exRescheduleState "t2" 550 _ _ rfl rfl
      ⟨{ id := "task-t1-540", type := .task, startTime := 540, endTime := 600,
         title := "T1", taskId := some "t1",
         task := some { id := "t1", name := "T1", duration := 60, deadline := 3000,
                        priority := .high, type := .work } },
       by decide, by decide, by decide⟩
  · exact C2_theorem.2 exRescheduleState.schedule "t2" 550 _
      { id := "task-t1-540", type := .task, startTime := 540, endTime := 600,
        title := "T1", taskId := some "t1",
        task := some { id := "t1", name := "T1", duration := 60, deadline := 3000,
                       priority := .high, type := .work } }
      0 rfl (by decide) (by decide) (by decide)

/-- Claim C4, counterexample: the ScheduleEngine allocator is not slot-based:
asked for 45 minutes from 09:00 on an empty schedule it returns 09:00-09:45,
whose length is exactly the stated duration, not the claimed
ceil(45 / 30) * 30 = 60 minutes. -/
theorem C4_counterexample :
    ScheduleEngine.findAvailableSlot [] 540 45 1020 = some (540, 585) ∧
      540 + 30 * (((45 : Int) + 29).ediv 30) = 600 ∧ (585 : Int) ≠ 600 := by
  refine ⟨by decide, by decide, by decide⟩

/-- Claim C4, amended: the slot-grid allocator of TimetableScheduler does
allocate end = start + ceil(duration / 30) * 30 for every positive duration,
but the ScheduleEngine allocator always returns an interval of exactly the
requested duration (end = start + duration), so the ceiling formula holds for
the slot-grid variant only.  (Both results still lie within the claim's
bounds duration <= end - start < duration + 30.) -/
theorem C4_theorem :
    (∀ (tt : List TimeBlock) (d date a b : Int), 0 < d →
      TimetableScheduler.findAvailableSlot tt d date = some (a, b) →
      b = a + 30 * ((d + 29).ediv 30)) ∧
    (∀ (sched : List TimeBlock) (t d eod a b : Int),
      ScheduleEngine.findAvailableSlot sched t d eod = some (a, b) →
      b = a + d) := by
  constructor
  · intro tt d date a b hd h
    simp only [TimetableScheduler.findAvailableSlot] at h
    have hpos : (1 : Int) ≤ (d + 29).ediv 30 :=
      (Int.le_ediv_iff_mul_le (by norm_num)).mpr (by omega)
    have hreq : 0 < ((d + 29).ediv 30).toNat := by omega
    have hspec := findSlotRun_spec _ _ a b hreq
      (markSlots_stop tt _ (buildSlots_stop _ _))
      (markSlots_chain tt _ (buildSlots_chain _ _))
      h
    rw [hspec]
    have hcast : ((((d + 29).ediv 30).toNat : Nat) : Int) = (d + 29).ediv 30 :=
      Int.toNat_of_nonneg (by omega)
    rw [hcast]
  · intro sched t d eod a b h
    simp only [ScheduleEngine.findAvailableSlot] at h
    split at h
    · cases h
    · split at h
      · exact (slotScan_shape d eod _ t a b h).symm ▸ rfl
      · simp only [Option.some.injEq, Prod.mk.injEq] at h
        obtain ⟨rfl, rfl⟩ := h
        rfl

/-- Witness for C4: the grid allocator rounds 45 minutes up to two slots
(06:00-07:00), while the engine allocator returns exactly 45 minutes. -/
theorem C4_witness :
    (TimetableScheduler.findAvailableSlot [] 45 0 = some (360, 420) ∧
      (420 : Int) = 360 + 30 * (((45 : Int) + 29).ediv 30)) ∧
      (585 : Int) = 540 + 45 := by
  refine ⟨⟨by decide, ?_⟩, ?_⟩
  · exact C4_theorem.1 [] 45 0 360 420 (by decide) (by decide)
  · exact C4_theorem.2 [] 540 45 1020 540 585 (by decide)

/-- Claim C7, counterexample: the first-revision break pass inserts a break
between two tasks although the continuous-work accumulator stands at only 45
minutes, far below maxContinuousWork = 90: its needs-break test degenerates to
"the gap is at least 15 minutes".  Between a 45-minute task and the next task
15 minutes later it inserts a 15-minute break. -/
theorem C7_counterexample :
    TimetableScheduler.insertBreaks exBreakTimetable =
        exBreakTimetable ++
          [{ id := "break-task-a-task-b", type := .brk, startTime := 585,
             endTime := 600, title := "Short Break",
             description := some "Time to recharge" }] ∧
      (45 : Int) < 90 := by
  refine ⟨by decide, by decide⟩

/-- Claim C7, amended: in the first revision a break is inserted between
adjacent tasks exactly when the gap is at least 15 minutes and the break fits
(the accumulator plays no part in whether a break appears); its length is 30
minutes exactly when the accumulator, after adding the earlier task, is at
least 120 (not 180) and 15 otherwise; and the accumulator is reset only when
a 30-minute break is inserted — never by a short break and never by a long
natural gap.  In the second revision every inserted break is 15 or 30 minutes
long. -/
theorem C7_theorem :
    (∀ (a b : TimeBlock) (rest : List TimeBlock) (cont : Int),
      TimetableScheduler.insertBreaksGo (a :: b :: rest) cont =
        (if 15 ≤ b.startTime - a.endTime ∧
            a.endTime +
              (if 120 ≤ cont + ((a.task.map Task.duration).getD 0) then (30 : Int)
               else 15) ≤ b.startTime then
          TimetableScheduler.mkV1Break a b
              (if 120 ≤ cont + ((a.task.map Task.duration).getD 0) then 30 else 15)
            :: TimetableScheduler.insertBreaksGo (b :: rest)
              (if 120 ≤ cont + ((a.task.map Task.duration).getD 0) then 0
               else cont + ((a.task.map Task.duration).getD 0))
        else TimetableScheduler.insertBreaksGo (b :: rest)
          (cont + ((a.task.map Task.duration).getD 0)))) ∧
    (∀ (L : List TimeBlock) (cont : Int) (br : TimeBlock),
      br ∈ TimetableScheduler.insertIntelligentBreaksGo L cont →
      br.endTime - br.startTime = 15 ∨ br.endTime - br.startTime = 30) := by
  constructor
  · intro a b rest cont
    simp only [TimetableScheduler.insertBreaksGo]
    by_cases hgap : (15 : Int) ≤ b.startTime - a.endTime
    · by_cases h120 : (120 : Int) ≤ cont + ((a.task.map Task.duration).getD 0)
      · by_cases hfit : a.endTime + 30 ≤ b.startTime
        · simp [hgap, h120, hfit]
        · simp [hgap, h120, hfit]
      · by_cases hfit : a.endTime + 15 ≤ b.startTime
        · simp [hgap, h120, hfit]
        · simp [hgap, h120, hfit]
    · simp [hgap]
  · intro L
    induction L with
    | nil =>
      intro cont br h
      simp [TimetableScheduler.insertIntelligentBreaksGo] at h
    | cons a tail ih =>
      cases tail with
      | nil =>
        intro cont br h
        simp [TimetableScheduler.insertIntelligentBreaksGo] at h
      | cons b rest =>
        intro cont br h
        simp only [TimetableScheduler.insertIntelligentBreaksGo] at h
        repeat' split at h
        all_goals
          first
          | exact ih _ br h
          | (rcases List.mem_cons.mp h with h1 | h2
             · subst h1
               simp only [TimetableScheduler.mkV2Break]
               omega
             · exact ih _ br h2)

/-- Witness for C7: the break the second revision inserts between the two
tasks of exBreakTimetable is 15 minutes long. -/
theorem C7_witness :
    exV2Break.endTime - exV2Break.startTime = 15 ∨
      exV2Break.endTime - exV2Break.startTime = 30 :=
  C7_theorem.2 exBreakTimetable 0 exV2Break (by decide)

/-- Claim C8, divergence exhibited: the rule id "ab-cd" contains a dash, as
every crypto.randomUUID id the application mints does.  Deleting its
materialized block "unavailable-ab-cd-7740" on day 5 stores only the first
dash-separated fragment "ab" — not the rule id — in the day-5 suppression
set, so the regenerated Schedule for day 5 still contains the block the user
deleted: suppression never takes effect for dash-bearing rule ids, although
the code's own comment says it extracts the original block id and suppresses
the instance for that date. -/
theorem C8_theorem :
    ((ScheduleEngine.deleteTimeBlock exDashRuleGenerated "unavailable-ab-cd-7740"
        0).2.any fun b => b.id == "unavailable-ab-cd-7740") = true ∧
      ((ScheduleEngine.deleteTimeBlock exDashRuleGenerated "unavailable-ab-cd-7740"
        0).1.suppressedRecurringInstances.lookup 5) = some ["ab"] := by
  constructor
  · decide
  · decide

/-- Claim C3, counterexample: generateSchedule called twice on the very same
engine state (identical task and rule collections, identical configuration)
and the same date produces two different Schedules when the wall clock has
moved, because the placement cursor starts from the current time whenever the
clock falls inside the working window.  Here the same one-task state generates
the task at 09:00 when the clock reads midnight and at 10:00 when it reads
10:00. -/
theorem C3_counterexample :
    (ScheduleEngine.generateSchedule exOneTaskState 0 0).2 ≠
      (ScheduleEngine.generateSchedule exOneTaskState 0 600).2 := by
  decide

/-- Claim C3, amended: generateSchedule is deterministic once the wall-clock
reading is counted among the inputs: two engine states agreeing on
configuration, tasks, rules, ad-hoc blocks and suppressions (their current
schedules may differ) generate identical Schedules for the same date and the
same clock reading. -/
theorem C3_theorem (s1 s2 : ScheduleEngine.State) (date now : Int)
    (hc : s1.config = s2.config) (ht : s1.tasks = s2.tasks)
    (hu : s1.unavailableBlocks = s2.unavailableBlocks)
    (ha : s1.adHocUnavailableByDate = s2.adHocUnavailableByDate)
    (hs : s1.suppressedRecurringInstances = s2.suppressedRecurringInstances) :
    (ScheduleEngine.generateSchedule s1 date now).2 =
      (ScheduleEngine.generateSchedule s2 date now).2 := by
  cases s1
  cases s2
  dsimp only at hc ht hu ha hs
  subst hc ht hu ha hs
  rfl

/-- Witness for C3: two states differing only in their current schedule
generate the same blocks. -/
theorem C3_witness :
    (ScheduleEngine.generateSchedule exEmptyState 0 0).2 =
      (ScheduleEngine.generateSchedule
        { exEmptyState with schedule := exSingleBlockSchedule } 0 0).2 :=
  C3_theorem exEmptyState { exEmptyState with schedule := exSingleBlockSchedule }
    0 0 rfl rfl rfl rfl rfl

/-- Claim C5, confirmed: in both scoring functions (getUrgencyScore of
ScheduleEngine and getBalancedScore of TimetableScheduler), a task whose
deadline is strictly earlier never scores lower than an otherwise identical
task, whatever the current time. -/
theorem C5_theorem (now : Int) (a b : Task)
    (hp : a.priority = b.priority) (hty : a.type = b.type)
    (hdur : a.duration = b.duration) (hdl : a.deadline < b.deadline) :
    ScheduleEngine.getUrgencyScore now b ≤ ScheduleEngine.getUrgencyScore now a ∧
      TimetableScheduler.getBalancedScore now b ≤
        TimetableScheduler.getBalancedScore now a := by
  obtain ⟨aid, aname, adur, adl, ap, aty, ac, ast⟩ := a
  obtain ⟨bid, bname, bdur, bdl, bp, bty, bc, bst⟩ := b
  dsimp only at hp hty hdur hdl
  subst hp
  subst hty
  subst hdur
  unfold ScheduleEngine.getUrgencyScore TimetableScheduler.getBalancedScore
  dsimp only
  constructor
  · have hband : (if bdl - now ≤ 1440 then (100 : Int)
        else if bdl - now ≤ 2880 then 80 else if bdl - now ≤ 10080 then 60 else 20)
        ≤ (if adl - now ≤ 1440 then (100 : Int)
        else if adl - now ≤ 2880 then 80 else if adl - now ≤ 10080 then 60 else 20) := by
      split_ifs <;> omega
    exact add_le_add (add_le_add hband le_rfl) le_rfl
  · have hband : (if bdl - now ≤ 1440 then (80 : Int)
        else if bdl - now ≤ 2880 then 60 else if bdl - now ≤ 10080 then 40 else 15)
        ≤ (if adl - now ≤ 1440 then (80 : Int)
        else if adl - now ≤ 2880 then 60 else if adl - now ≤ 10080 then 40 else 15) := by
      split_ifs <;> omega
    exact sub_le_sub (sub_le_sub (add_le_add (add_le_add hband le_rfl) le_rfl) le_rfl) le_rfl

/-- Witness for C5: the earlier-deadline twin scores at least as high under
both scoring functions. -/
theorem C5_witness :
    ScheduleEngine.getUrgencyScore 0 exTaskLate ≤
        ScheduleEngine.getUrgencyScore 0 exTaskEarly ∧
      TimetableScheduler.getBalancedScore 0 exTaskLate ≤
        TimetableScheduler.getBalancedScore 0 exTaskEarly :=
  C5_theorem 0 exTaskEarly exTaskLate rfl rfl rfl (by decide)

/-- Claim C6, counterexample: in the ScheduleEngine revision, a rule without
recurrence whose template date is day 0 is still materialized when generating
day 5 (its time of day is simply replayed onto the target date), so a
non-recurring rule for a different date does produce a block, contradicting
the include-only-on-the-same-calendar-day claim. -/
theorem C6_counterexample :
    sameDay exOneOffRule.startTime 7740 = false ∧
      ScheduleEngine.materializeRecurring [exOneOffRule] [] (7740, 8220) =
        [{ id := "unavailable-r0-7740", type := .unavailable, startTime := 7800,
           endTime := 7860, title := "Appt", isFixed := true }] := by
  constructor
  · decide
  · rfl

/-- Claim C6, amended: ScheduleEngine.shouldIncludeBlock (and the first
TimetableScheduler revision, which is word-for-word the same on this branch)
includes every non-recurring rule regardless of the target date; only the
second TimetableScheduler revision implements the claimed behaviour, including
a non-recurring rule exactly when its template date falls on the target
calendar day. -/
theorem C6_theorem :
    (∀ (b : UnavailableBlock) (date : Int), b.recurring = none →
      ScheduleEngine.shouldIncludeBlock b date = true) ∧
    (∀ (b : UnavailableBlock) (date : Int), b.recurring = none →
      (TimetableScheduler.shouldIncludeBlockV2 b date = true ↔
        dayOf b.startTime = dayOf date)) := by
  constructor
  · intro b date h
    unfold ScheduleEngine.shouldIncludeBlock
    rw [h]
  · intro b date h
    unfold TimetableScheduler.shouldIncludeBlockV2
    rw [h]
    simp [sameDay]

/-- Witness for C6: the one-off rule of day 0 against a day-5 target. -/
theorem C6_witness :
    ScheduleEngine.shouldIncludeBlock exOneOffRule 7740 = true ∧
      (TimetableScheduler.shouldIncludeBlockV2 exOneOffRule 7740 = true ↔
        dayOf exOneOffRule.startTime = dayOf 7740) :=
  ⟨C6_theorem.1 exOneOffRule 7740 rfl, C6_theorem.2 exOneOffRule 7740 rfl⟩

/-- Claim C9, counterexample: addUnavailableTime accepts an ad-hoc block whose
end (10:00) precedes its start (11:00) without any validation error (the
operation has no error channel at all), and the regenerated Schedule it
returns contains the inverted block. -/
theorem C9_counterexample :
    ((ScheduleEngine.addUnavailableTime exEmptyState 660 600 "Errand" none 0).2.any
      fun b => decide (b.endTime ≤ b.startTime)) = true := by
  decide

/-- Claim C9, amended: the engine performs no input validation: for every
start/end pair whatsoever, including end at or before start, addUnavailableTime
records the ad-hoc block unchanged under the date key of its start and reports
no error; inverted intervals are stored like any others (and, as the
counterexample shows, can be materialized into the Schedule). -/
theorem C9_theorem (st : ScheduleEngine.State) (s e : Int) (title : String)
    (desc : Option String) (now : Int) :
    ∃ l, ((ScheduleEngine.addUnavailableTime st s e title desc now).1.adHocUnavailableByDate.lookup
        (dayOf s)) = some l
      ∧ ∃ b ∈ l, b.startTime = s ∧ b.endTime = e ∧ b.type = BlockType.unavailable
        ∧ b.isFixed = true := by
  refine ⟨_, lookup_mapSet _ _ _, ?_⟩
  refine ⟨_, List.mem_append_right _ (List.mem_cons_self _ _), rfl, rfl, rfl, rfl⟩

/-- Claim C10, confirmed: when no block of the schedule carries the requested
task id, rescheduleTask is the identity in every variant: the ScheduleEngine
revisions return state and schedule unchanged, and the TimetableScheduler
revisions return the passed timetable unchanged. -/
theorem C10_theorem :
    (∀ (st : ScheduleEngine.State) (taskId : String) (newStart : Int),
      (∀ b ∈ st.schedule, ¬b.taskId = some taskId) →
      ScheduleEngine.rescheduleTask st taskId newStart = (st, st.schedule)) ∧
    (∀ (tt : List TimeBlock) (taskId : String) (newStart : Int),
      (∀ b ∈ tt, ¬b.taskId = some taskId) →
      TimetableScheduler.rescheduleTask taskId newStart tt = tt) := by
  constructor
  · intro st taskId newStart h
    have hf : (st.schedule.find? fun b => b.taskId == some taskId) = none := by
      rw [List.find?_eq_none]
      intro x hx
      simpa using h x hx
    unfold ScheduleEngine.rescheduleTask
    rw [hf]
  · intro tt taskId newStart h
    have hi : (tt.findIdx fun b => b.taskId == some taskId) = tt.length :=
      List.findIdx_eq_length_of_false fun x hx => by simpa using h x hx
    unfold TimetableScheduler.rescheduleTask
    rw [hi]
    simp

/-- Witness for C10: rescheduling an id absent from the schedule. -/
theorem C10_witness :
    ScheduleEngine.rescheduleTask exRescheduleState "zz" 700 =
        (exRescheduleState, exRescheduleState.schedule) ∧
      TimetableScheduler.rescheduleTask "zz" 700 exSingleBlockSchedule =
        exSingleBlockSchedule :=
  ⟨C10_theorem.1 exRescheduleState "zz" 700 (by decide),
   C10_theorem.2 exSingleBlockSchedule "zz" 700 (by decide)⟩

end DailyBalance
